import Mathlib

/-!
Shallow embedding of `src/scripts/publish.js` (pavan-rangani/tech-blog):
a sequential pipeline that publishes a JSON index of markdown posts to a
WordPress REST API (render markdown, resolve tags and the "Blog" category,
then create-or-update the post by slug).

External collaborators (the filesystem, the markdown renderer `marked`,
JavaScript `Date` parsing, and the remote WordPress API) are modelled as an
oracle structure `Env` of pure functions, per request endpoint.  Every
request the script issues is recorded in an explicit trace (`Request`),
and every `console.warn` call in an explicit warning list, so that claims
about which calls are made (and which warnings are printed) are statable.
-/

/-- One entry of `blogs.json`'s `posts` array.  `publishPost` destructures
only `slug, title, excerpt, date, tags`; any `featuredImage` field of an
entry is representable but never read by the script. -/
structure PostMeta where
  slug : String
  title : String
  excerpt : String
  date : String
  tags : Option (List String)
  featuredImage : Option String
deriving Repr, DecidableEq

/-- The JSON body assembled at publish.js lines 160-169 (`postData`). -/
structure PostData where
  title : String
  slug : String
  content : String
  excerpt : String
  status : String
  date : String
  tags : List Nat
  categories : List Nat
deriving Repr, DecidableEq

/-- Values occurring in the serialized `postData` object. -/
inductive JsonVal where
  | str (s : String)
  | arr (ns : List Nat)
deriving Repr, DecidableEq

/-- The key/value pairs of the JSON object literal built at lines 160-169,
in the insertion order of the object literal. -/
def payloadFields (pd : PostData) : List (String × JsonVal) :=
  [("title", .str pd.title),
   ("slug", .str pd.slug),
   ("content", .str pd.content),
   ("excerpt", .str pd.excerpt),
   ("status", .str pd.status),
   ("date", .str pd.date),
   ("tags", .arr pd.tags),
   ("categories", .arr pd.categories)]

/-- A tag or category resource as returned by the remote API. -/
structure TaxTerm where
  id : Nat
  name : String
deriving Repr, DecidableEq

/-- A remote post as returned by `GET /posts?slug=...`. -/
structure RemotePost where
  id : Nat
  slug : String
  status : String
deriving Repr, DecidableEq

/-- The HTTP requests publish.js can issue, one constructor per call site.
The three media constructors cover the remote media surface named by the
spec (search/download/upload of a featured image); the script has no call
site for them, so a trace never contains one. -/
inductive Request where
  | probe
  | getPosts (slug : String)
  | searchTags (name : String)
  | createTag (name : String)
  | searchCategories (name : String)
  | createCategory (name : String)
  | putPost (id : Nat) (data : PostData)
  | createPost (data : PostData)
  | searchMedia (slugFragment : String)
  | downloadImage (url : String)
  | uploadMedia (filename : String)
deriving Repr, DecidableEq

/-- Oracle for everything outside the script: filesystem, renderer, `Date`
parsing, and the response of the remote API to each kind of request.
An `Except.error` models a thrown error (non-2xx response or network
failure) of that request. -/
structure Env where
  fileExists : String → Bool
  readFile : String → String
  render : String → String
  parseDate : String → Option String
  probe : Except String Unit
  getPosts : String → Except String (List RemotePost)
  tagSearch : String → Except String (List TaxTerm)
  tagCreate : String → Except String TaxTerm
  catSearch : String → Except String (List TaxTerm)
  catCreate : String → Except String TaxTerm
  putPost : Nat → PostData → Except String Unit
  createPost : PostData → Except String Unit

/-- Model of `path.join(__dirname, "..", "posts", slug + ".md")` (line 130):
the markdown path is derived deterministically from the slug. -/
def mdPath (slug : String) : String :=
  "posts/" ++ slug ++ ".md"

/-- WordPress-side semantics of `GET /posts?slug=S&status=publish,draft,pending`:
the posts matching the slug whose status is one of the three filters. -/
def wpStatusFilter : List String :=
  ["publish", "draft", "pending"]

/-- The list the remote endpoint returns for a slug, given the remote state. -/
def remoteQuery (remote : List RemotePost) (slug : String) : List RemotePost :=
  remote.filter (fun p => p.slug == slug && wpStatusFilter.contains p.status)

/-- Function `getExistingPost` (lines 92-97): query by slug with the three-status
filter, take the first element if any, else null. -/
def getExistingPost (env : Env) (slug : String) :
    Except String (Option RemotePost) × List Request :=
  match env.getPosts slug with
  | .error e => (.error e, [.getPosts slug])
  | .ok posts => (.ok posts.head?, [.getPosts slug])

/-- JavaScript `toLowerCase()` over the character list of the string (the
case-insensitive comparison used when matching taxonomy terms). -/
def lowerStr (s : String) : String :=
  String.mk (s.data.map Char.toLower)

/-- Function `getOrCreateTag` (lines 99-111): search, first case-insensitive name
match wins; else create the tag and return its id. -/
def getOrCreateTag (env : Env) (tagName : String) :
    Except String Nat × List Request :=
  match env.tagSearch tagName with
  | .error e => (.error e, [.searchTags tagName])
  | .ok existing =>
    match existing.find? (fun t => lowerStr t.name == lowerStr tagName) with
    | some m => (.ok m.id, [.searchTags tagName])
    | none =>
      match env.tagCreate tagName with
      | .error e => (.error e, [.searchTags tagName, .createTag tagName])
      | .ok tag => (.ok tag.id, [.searchTags tagName, .createTag tagName])

/-- Function `getOrCreateCategory` (lines 113-125): same shape as tags. -/
def getOrCreateCategory (env : Env) (name : String) :
    Except String Nat × List Request :=
  match env.catSearch name with
  | .error e => (.error e, [.searchCategories name])
  | .ok existing =>
    match existing.find? (fun c => lowerStr c.name == lowerStr name) with
    | some m => (.ok m.id, [.searchCategories name])
    | none =>
      match env.catCreate name with
      | .error e => (.error e, [.searchCategories name, .createCategory name])
      | .ok cat => (.ok cat.id, [.searchCategories name, .createCategory name])

/-- Output of a sub-resource resolution step: resolved ids, request trace,
warnings printed. -/
structure StepOut where
  ids : List Nat
  trace : List Request
  warnings : List String
deriving Repr, DecidableEq

/-- The warning printed when a tag fails to resolve (line 147). -/
def tagWarn (tag msg : String) : String :=
  "  Warning: Could not create tag \"" ++ tag ++ "\": " ++ msg

/-- The warning printed when the category fails to resolve (line 157). -/
def catWarn (msg : String) : String :=
  "  Warning: Could not get/create category: " ++ msg

/-- The warning printed when the markdown file is missing (line 132). -/
def skipWarn (slug : String) : String :=
  "  Skipping \"" ++ slug ++ "\" - markdown file not found"

/-- The tag loop (lines 140-149): each tag resolved independently; on
success its id is pushed, on failure a warning is printed and the loop
continues with the next tag. -/
def resolveTags (env : Env) : List String → StepOut
  | [] => ⟨[], [], []⟩
  | t :: rest =>
    let r := getOrCreateTag env t
    let o := resolveTags env rest
    match r.1 with
    | .ok id => ⟨id :: o.ids, r.2 ++ o.trace, o.warnings⟩
    | .error e => ⟨o.ids, r.2 ++ o.trace, tagWarn t e :: o.warnings⟩

/-- The category block (lines 151-158): resolve the literal name "Blog";
on success `categoryIds = [id]`, on failure a warning and `[]`. -/
def resolveBlogCategory (env : Env) : StepOut :=
  let r := getOrCreateCategory env "Blog"
  match r.1 with
  | .ok id => ⟨[id], r.2, []⟩
  | .error e => ⟨[], r.2, [catWarn e]⟩

deriving instance DecidableEq for Except

/-- The outcome a single `publishPost` call can have when it returns
normally: early-return skip, update of an existing remote post, or create. -/
inductive PubResult where
  | skipped
  | updated (id : Nat)
  | created
deriving Repr, DecidableEq

/-- Result, request trace and warnings of one `publishPost` call; an
`Except.error` result models the call throwing (caught by `main`). -/
structure PubOut where
  result : Except String PubResult
  trace : List Request
  warnings : List String
deriving Repr, DecidableEq

/-- The `postData` assembly (lines 160-169): literal `status: "publish"`, date
converted through `new Date(date).toISOString()` (already done by the
caller), resolved tag and category ids. -/
def mkPostData (meta : PostMeta) (htmlContent isoDate : String)
    (tagIds categoryIds : List Nat) : PostData :=
  { title := meta.title
    slug := meta.slug
    content := htmlContent
    excerpt := meta.excerpt
    status := "publish"
    date := isoDate
    tags := tagIds
    categories := categoryIds }

/-- Function `publishPost` (lines 127-180), in source order: existence check of the
markdown file (skip if absent), render, tag loop, category block, payload
assembly (where an unparseable date throws `Invalid time value` before any
posts-resource request), existence check by slug, then PUT to the found id
or POST a new post. -/
def publishPost (env : Env) (meta : PostMeta) : PubOut :=
  if env.fileExists (mdPath meta.slug) = false then
    ⟨.ok .skipped, [], [skipWarn meta.slug]⟩
  else
    let markdown := env.readFile (mdPath meta.slug)
    let htmlContent := env.render markdown
    let tagsOut := resolveTags env (meta.tags.getD [])
    let catOut := resolveBlogCategory env
    let preTrace := tagsOut.trace ++ catOut.trace
    let preWarns := tagsOut.warnings ++ catOut.warnings
    match env.parseDate meta.date with
    | none => ⟨.error "Invalid time value", preTrace, preWarns⟩
    | some isoDate =>
      let postData := mkPostData meta htmlContent isoDate tagsOut.ids catOut.ids
      match env.getPosts meta.slug with
      | .error e => ⟨.error e, preTrace ++ [.getPosts meta.slug], preWarns⟩
      | .ok posts =>
        match posts.head? with
        | some existing =>
          match env.putPost existing.id postData with
          | .error e =>
            ⟨.error e, preTrace ++ [.getPosts meta.slug, .putPost existing.id postData], preWarns⟩
          | .ok _ =>
            ⟨.ok (.updated existing.id), preTrace ++ [.getPosts meta.slug, .putPost existing.id postData], preWarns⟩
        | none =>
          match env.createPost postData with
          | .error e =>
            ⟨.error e, preTrace ++ [.getPosts meta.slug, .createPost postData], preWarns⟩
          | .ok _ =>
            ⟨.ok .created, preTrace ++ [.getPosts meta.slug, .createPost postData], preWarns⟩

/-- The per-post loop of `main` (lines 203-215): `publishPost` in a
try/catch; a normal return increments `success`, a throw increments
`failed` and the loop continues with the next post. -/
def processPosts (env : Env) : List PostMeta → Nat × Nat × List Request
  | [] => (0, 0, [])
  | p :: rest =>
    let out := publishPost env p
    let r := processPosts env rest
    match out.result with
    | .ok _ => (r.1 + 1, r.2.1, out.trace ++ r.2.2)
    | .error _ => (r.1, r.2.1 + 1, out.trace ++ r.2.2)

/-- Success count, failure count, exit code and request trace of a run. -/
structure RunOut where
  success : Nat
  failed : Nat
  exitCode : Nat
  trace : List Request
deriving Repr, DecidableEq

/-- Function `main` (lines 182-220): connectivity probe (fatal exit 1 on failure,
before any post is processed), then the per-post loop, then exit 1 iff any
post failed (otherwise the process ends normally with code 0). -/
def mainRun (env : Env) (posts : List PostMeta) : RunOut :=
  match env.probe with
  | .error _ => ⟨0, 0, 1, [.probe]⟩
  | .ok _ =>
    let r := processPosts env posts
    ⟨r.1, r.2.1, if r.2.1 > 0 then 1 else 0, .probe :: r.2.2⟩

/-- JavaScript truthiness of the three env vars at line 11: `undefined`
and the empty string are both falsy. -/
def isMissing : Option String → Bool
  | none => true
  | some s => s == ""

/-- Removal of one trailing `/` — the regex replace `\/$ → ""` applied to
`WP_URL` at line 7, over the character list of the string. -/
def stripSlashList (cs : List Char) : List Char :=
  match cs.getLast? with
  | some c => if c = '/' then cs.dropLast else cs
  | none => cs

/-- Model of `process.env.WP_URL?.replace(/\/$/, "")`: the whole normalization the
script performs on the configured base URL. -/
def normalizeWpUrl (s : String) : String :=
  String.mk (stripSlashList s.data)

/-- The configuration surviving the line-11 check. -/
structure Config where
  wpUrl : String
  wpUsername : String
  wpAppPassword : String
deriving Repr, DecidableEq

/-- Lines 7-16: normalize `WP_URL`, then exit fatally if any of the three
variables is missing (falsy). -/
def startup (wpUrl wpUsername wpAppPassword : Option String) : Option Config :=
  let u := wpUrl.map normalizeWpUrl
  if isMissing u || isMissing wpUsername || isMissing wpAppPassword then
    none
  else
    some ⟨u.getD "", wpUsername.getD "", wpAppPassword.getD ""⟩

/-- The whole process: the module-level env check runs before `main`, so a
failed check exits with code 1 and an empty request trace; otherwise the
exit code and trace are those of `mainRun`. -/
def program (wpUrl wpUsername wpAppPassword : Option String)
    (env : Env) (posts : List PostMeta) : Nat × List Request :=
  match startup wpUrl wpUsername wpAppPassword with
  | none => (1, [])
  | some _ =>
    let r := mainRun env posts
    (r.exitCode, r.trace)

/-- Request classifiers used to count calls of one kind in a trace. -/
def isCreatePostReq : Request → Bool
  | .createPost _ => true
  | _ => false

def isPutPostReq : Request → Bool
  | .putPost _ _ => true
  | _ => false

def isGetPostsReq : Request → Bool
  | .getPosts _ => true
  | _ => false

def isCatSearchReq : Request → Bool
  | .searchCategories _ => true
  | _ => false

def isMediaReq : Request → Bool
  | .searchMedia _ => true
  | .downloadImage _ => true
  | .uploadMedia _ => true
  | _ => false

/-- The resolution outcome the tag loop observes for one tag name. -/
def tagOutcome (env : Env) (t : String) : Option Nat :=
  (getOrCreateTag env t).1.toOption

/-- The requests `publishPost` sends before touching the posts resource:
the tag loop's trace followed by the category block's trace. -/
def preTrace (env : Env) (meta : PostMeta) : List Request :=
  (resolveTags env (meta.tags.getD [])).trace ++ (resolveBlogCategory env).trace

/-- The warnings printed by the tag loop and the category block. -/
def preWarnings (env : Env) (meta : PostMeta) : List String :=
  (resolveTags env (meta.tags.getD [])).warnings ++ (resolveBlogCategory env).warnings

/-- The payload `publishPost` assembles for an entry whose date parsed to
`iso`: rendered markdown as content, resolved tag and category ids. -/
def assembledPayload (env : Env) (meta : PostMeta) (iso : String) : PostData :=
  mkPostData meta (env.render (env.readFile (mdPath meta.slug))) iso
    (resolveTags env (meta.tags.getD [])).ids (resolveBlogCategory env).ids

/-- A concrete oracle on which every external step succeeds: all files
exist, tag search finds nothing (so tags are created with id 7), the
category search finds "Blog" with id 3, and the posts resource accepts
everything; the remote has no post yet for any slug. -/
def envOk : Env :=
  { fileExists := fun _ => true
    readFile := fun _ => "md"
    render := fun s => "<p>" ++ s ++ "</p>"
    parseDate := fun d => some (d ++ "T00:00:00.000Z")
    probe := .ok ()
    getPosts := fun _ => .ok []
    tagSearch := fun _ => .ok []
    tagCreate := fun n => .ok ⟨7, n⟩
    catSearch := fun _ => .ok [⟨3, "Blog"⟩]
    catCreate := fun n => .ok ⟨9, n⟩
    putPost := fun _ _ => .ok ()
    createPost := fun _ => .ok () }

/-- An index entry carrying a featured-image URL whose download would 404. -/
def metaX : PostMeta :=
  ⟨"x", "Title X", "ex", "2025-03-01", some ["Valid"], some "https://example.com/missing.jpg"⟩

/-- The payload `publishPost envOk metaX` assembles and sends. -/
def pdX : PostData :=
  { title := "Title X", slug := "x", content := "<p>md</p>", excerpt := "ex"
    status := "publish", date := "2025-03-01T00:00:00.000Z", tags := [7], categories := [3] }

/-- Entry "a" of the two-post failure scenario. -/
def metaA : PostMeta := ⟨"a", "A", "e", "2025-01-01", none, none⟩

/-- Entry "b" of the two-post failure scenario. -/
def metaB : PostMeta := ⟨"b", "B", "e", "2025-01-01", none, none⟩

/-- Oracle on which the upsert of slug "a" fails with a 500 and everything
else succeeds. -/
def envC3 : Env :=
  { envOk with
    createPost := fun pd => if pd.slug = "a" then .error "API 500 on POST /posts" else .ok () }

/-- Oracle on which the tag "Valid" resolves to id 42 and every other tag
search fails with a 500. -/
def envBadTag : Env :=
  { envOk with
    tagSearch := fun n => if n = "Valid" then .ok [⟨42, "Valid"⟩] else .error "API 500 on GET /tags"
    tagCreate := fun _ => .error "API 500 on POST /tags" }

/-- Entry with one resolvable and one unresolvable tag. -/
def metaTags : PostMeta :=
  ⟨"x", "T", "e", "2025-01-01", some ["Valid", "🚫Invalid🚫"], none⟩

/-- Oracle on which every date fails to parse. -/
def envBadDate : Env := { envOk with parseDate := fun _ => none }

/-- Remote state holding a draft with slug "x" (id 11) and an unrelated
trashed post (id 12). -/
def remoteX : List RemotePost := [⟨11, "x", "draft"⟩, ⟨12, "y", "trash"⟩]

/-- Oracle whose posts endpoint answers queries from the state `remoteX`. -/
def envRemote : Env := { envOk with getPosts := fun s => .ok (remoteQuery remoteX s) }

/-- Oracle on which exactly the file `posts/missing.md` is absent. -/
def envSkip : Env := { envOk with fileExists := fun p => p != "posts/missing.md" }

/-- Entry whose markdown file is absent under `envSkip`. -/
def metaMissing : PostMeta := ⟨"missing", "M", "e", "2025-01-01", none, none⟩

/-! ### Structural lemmas about the sub-resource blocks -/

theorem getOrCreateTag_trace_mem (env : Env) (t : String) :
    ∀ r ∈ (getOrCreateTag env t).2,
      r = Request.searchTags t ∨ r = Request.createTag t := by
  intro r hr
  unfold getOrCreateTag at hr
  split at hr
  · simp at hr; simp [hr]
  · split at hr
    · simp at hr; simp [hr]
    · split at hr <;> simp at hr <;> rcases hr with h | h <;> simp [h]

theorem getOrCreateCategory_trace_mem (env : Env) (n : String) :
    ∀ r ∈ (getOrCreateCategory env n).2,
      r = Request.searchCategories n ∨ r = Request.createCategory n := by
  intro r hr
  unfold getOrCreateCategory at hr
  split at hr
  · simp at hr; simp [hr]
  · split at hr
    · simp at hr; simp [hr]
    · split at hr <;> simp at hr <;> rcases hr with h | h <;> simp [h]

theorem resolveTags_trace_mem (env : Env) (ts : List String) :
    ∀ r ∈ (resolveTags env ts).trace,
      (∃ n, r = Request.searchTags n) ∨ (∃ n, r = Request.createTag n) := by
  induction ts with
  | nil => intro r hr; simp [resolveTags] at hr
  | cons t rest ih =>
    intro r hr
    simp only [resolveTags] at hr
    split at hr <;> simp only [List.mem_append] at hr <;>
      rcases hr with h | h
    · rcases getOrCreateTag_trace_mem env t r h with h' | h' <;> simp [h']
    · exact ih r h
    · rcases getOrCreateTag_trace_mem env t r h with h' | h' <;> simp [h']
    · exact ih r h

theorem resolveBlogCategory_trace_mem (env : Env) :
    ∀ r ∈ (resolveBlogCategory env).trace,
      r = Request.searchCategories "Blog" ∨ r = Request.createCategory "Blog" := by
  intro r hr
  simp only [resolveBlogCategory] at hr
  split at hr <;> exact getOrCreateCategory_trace_mem env "Blog" r hr

theorem preTrace_mem (env : Env) (meta : PostMeta) :
    ∀ r ∈ preTrace env meta,
      (∃ n, r = Request.searchTags n) ∨ (∃ n, r = Request.createTag n) ∨
      r = Request.searchCategories "Blog" ∨ r = Request.createCategory "Blog" := by
  intro r hr
  unfold preTrace at hr
  rcases List.mem_append.mp hr with h | h
  · rcases resolveTags_trace_mem env _ r h with h' | h' <;> simp [h']
  · rcases resolveBlogCategory_trace_mem env r h with h' | h' <;> simp [h']

theorem resolveTags_ids_eq (env : Env) (ts : List String) :
    (resolveTags env ts).ids = ts.filterMap (tagOutcome env) := by
  induction ts with
  | nil => simp [resolveTags]
  | cons t rest ih =>
    unfold resolveTags
    rcases h : (getOrCreateTag env t).1 with e | id <;>
      simp [List.filterMap_cons, tagOutcome, h, Except.toOption, ih]

theorem getOrCreateCategory_catSearch_count (env : Env) (n : String) :
    ((getOrCreateCategory env n).2.countP isCatSearchReq) = 1 := by
  unfold getOrCreateCategory
  split
  · simp [List.countP_cons, isCatSearchReq]
  · split
    · simp [List.countP_cons, isCatSearchReq]
    · split <;> simp [List.countP_cons, isCatSearchReq]

theorem resolveBlogCategory_catSearch_count (env : Env) :
    ((resolveBlogCategory env).trace.countP isCatSearchReq) = 1 := by
  simp only [resolveBlogCategory]
  split <;> exact getOrCreateCategory_catSearch_count env "Blog"

theorem preTrace_catSearch_count (env : Env) (meta : PostMeta) :
    ((preTrace env meta).countP isCatSearchReq) = 1 := by
  unfold preTrace
  rw [List.countP_append, resolveBlogCategory_catSearch_count]
  have h0 : ((resolveTags env (meta.tags.getD [])).trace.countP isCatSearchReq) = 0 := by
    rw [List.countP_eq_zero]
    intro r hr
    rcases resolveTags_trace_mem env _ r hr with ⟨n, h⟩ | ⟨n, h⟩ <;> simp [h, isCatSearchReq]
  omega

/-! ### Case equations for `publishPost` -/

theorem publishPost_skip (env : Env) (meta : PostMeta)
    (hmiss : env.fileExists (mdPath meta.slug) = false) :
    publishPost env meta = ⟨.ok .skipped, [], [skipWarn meta.slug]⟩ := by
  simp [publishPost, hmiss]

theorem publishPost_bad_date (env : Env) (meta : PostMeta)
    (hfile : env.fileExists (mdPath meta.slug) = true)
    (hdate : env.parseDate meta.date = none) :
    publishPost env meta =
      ⟨.error "Invalid time value", preTrace env meta, preWarnings env meta⟩ := by
  simp [publishPost, hfile, hdate, preTrace, preWarnings]

theorem publishPost_get_err (env : Env) (meta : PostMeta) (iso e : String)
    (hfile : env.fileExists (mdPath meta.slug) = true)
    (hdate : env.parseDate meta.date = some iso)
    (hget : env.getPosts meta.slug = .error e) :
    publishPost env meta =
      ⟨.error e, preTrace env meta ++ [.getPosts meta.slug], preWarnings env meta⟩ := by
  simp [publishPost, hfile, hdate, hget, preTrace, preWarnings]

theorem publishPost_upsert (env : Env) (meta : PostMeta) (iso : String)
    (posts : List RemotePost)
    (hfile : env.fileExists (mdPath meta.slug) = true)
    (hdate : env.parseDate meta.date = some iso)
    (hget : env.getPosts meta.slug = .ok posts) :
    publishPost env meta =
      match posts.head? with
      | some p =>
        match env.putPost p.id (assembledPayload env meta iso) with
        | .error e =>
          ⟨.error e,
           preTrace env meta ++ [.getPosts meta.slug, .putPost p.id (assembledPayload env meta iso)],
           preWarnings env meta⟩
        | .ok _ =>
          ⟨.ok (.updated p.id),
           preTrace env meta ++ [.getPosts meta.slug, .putPost p.id (assembledPayload env meta iso)],
           preWarnings env meta⟩
      | none =>
        match env.createPost (assembledPayload env meta iso) with
        | .error e =>
          ⟨.error e,
           preTrace env meta ++ [.getPosts meta.slug, .createPost (assembledPayload env meta iso)],
           preWarnings env meta⟩
        | .ok _ =>
          ⟨.ok .created,
           preTrace env meta ++ [.getPosts meta.slug, .createPost (assembledPayload env meta iso)],
           preWarnings env meta⟩ := by
  simp only [publishPost, hfile, hdate, hget]
  rfl

theorem publishPost_trace_decomp (env : Env) (meta : PostMeta)
    (hfile : env.fileExists (mdPath meta.slug) = true) :
    ∃ tail, (publishPost env meta).trace = preTrace env meta ++ tail ∧
      ∀ r ∈ tail, r = Request.getPosts meta.slug ∨
        (∃ i d, r = Request.putPost i d) ∨ (∃ d, r = Request.createPost d) := by
  rcases hdate : env.parseDate meta.date with _ | iso
  · exact ⟨[], by simp [publishPost_bad_date env meta hfile hdate], by simp⟩
  · rcases hget : env.getPosts meta.slug with e | posts
    · exact ⟨[Request.getPosts meta.slug],
        by simp [publishPost_get_err env meta iso e hfile hdate hget], by simp⟩
    · rw [publishPost_upsert env meta iso posts hfile hdate hget]
      split <;> split <;>
        (refine ⟨_, rfl, ?_⟩; intro r hr; simp at hr; rcases hr with h | h <;> simp [h])

theorem publishPost_trace_mem (env : Env) (meta : PostMeta) :
    ∀ r ∈ (publishPost env meta).trace,
      (∃ n, r = Request.searchTags n) ∨ (∃ n, r = Request.createTag n) ∨
      r = Request.searchCategories "Blog" ∨ r = Request.createCategory "Blog" ∨
      r = Request.getPosts meta.slug ∨
      (∃ i d, r = Request.putPost i d) ∨ (∃ d, r = Request.createPost d) := by
  intro r hr
  rcases hfile : env.fileExists (mdPath meta.slug) with _ | _
  · rw [publishPost_skip env meta hfile] at hr; simp at hr
  · obtain ⟨tail, htr, htail⟩ := publishPost_trace_decomp env meta hfile
    rw [htr] at hr
    rcases List.mem_append.mp hr with h | h
    · rcases preTrace_mem env meta r h with h' | h' | h' | h' <;> simp [h']
    · rcases htail r h with h' | h' | h' <;> simp [h']

theorem publishPost_media_count (env : Env) (meta : PostMeta) :
    ((publishPost env meta).trace.countP isMediaReq) = 0 := by
  rw [List.countP_eq_zero]
  intro r hr
  rcases publishPost_trace_mem env meta r hr with
    ⟨n, h⟩ | ⟨n, h⟩ | h | h | h | ⟨i, d, h⟩ | ⟨d, h⟩ <;> simp [h, isMediaReq]

theorem publishPost_catSearch_count (env : Env) (meta : PostMeta) :
    ((publishPost env meta).trace.countP isCatSearchReq) =
      if env.fileExists (mdPath meta.slug) then 1 else 0 := by
  rcases hfile : env.fileExists (mdPath meta.slug) with _ | _
  · rw [publishPost_skip env meta hfile]; simp
  · obtain ⟨tail, htr, htail⟩ := publishPost_trace_decomp env meta hfile
    rw [htr, List.countP_append, preTrace_catSearch_count]
    have h0 : (tail.countP isCatSearchReq) = 0 := by
      rw [List.countP_eq_zero]
      intro r hr
      rcases htail r hr with h | ⟨i, d, h⟩ | ⟨d, h⟩ <;> simp [h, isCatSearchReq]
    simp [h0]

theorem preTrace_countP_zero (env : Env) (meta : PostMeta) (f : Request → Bool)
    (h1 : ∀ n, f (.searchTags n) = false) (h2 : ∀ n, f (.createTag n) = false)
    (h3 : f (.searchCategories "Blog") = false)
    (h4 : f (.createCategory "Blog") = false) :
    ((preTrace env meta).countP f) = 0 := by
  rw [List.countP_eq_zero]
  intro r hr
  rcases preTrace_mem env meta r hr with ⟨n, h⟩ | ⟨n, h⟩ | h | h <;>
    simp [h, h1, h2, h3, h4]

/-! ### Lemmas about the per-post loop and the run -/

theorem processPosts_total (env : Env) (posts : List PostMeta) :
    (processPosts env posts).1 + (processPosts env posts).2.1 = posts.length := by
  induction posts with
  | nil => simp [processPosts]
  | cons p rest ih =>
    simp only [processPosts]
    split <;> simp <;> omega

theorem processPosts_failed_zero (env : Env) (posts : List PostMeta)
    (hok : ∀ p ∈ posts, ∃ res, (publishPost env p).result = .ok res) :
    (processPosts env posts).2.1 = 0 := by
  induction posts with
  | nil => simp [processPosts]
  | cons p rest ih =>
    obtain ⟨res, hres⟩ := hok p (by simp)
    have ih' := ih (fun q hq => hok q (by simp [hq]))
    simp only [processPosts, hres]
    simpa using ih'

theorem processPosts_catSearch_count (env : Env) (posts : List PostMeta) :
    ((processPosts env posts).2.2.countP isCatSearchReq) =
      posts.countP (fun p => env.fileExists (mdPath p.slug)) := by
  induction posts with
  | nil => simp [processPosts]
  | cons p rest ih =>
    have hp := publishPost_catSearch_count env p
    simp only [processPosts]
    split <;>
      simp [List.countP_append, List.countP_cons, ih, hp] <;>
      rcases env.fileExists (mdPath p.slug) with _ | _ <;> simp <;> omega

theorem processPosts_trace_mem (env : Env) (posts : List PostMeta) :
    ∀ r ∈ (processPosts env posts).2.2, ∃ p ∈ posts, r ∈ (publishPost env p).trace := by
  induction posts with
  | nil => intro r hr; simp [processPosts] at hr
  | cons p rest ih =>
    intro r hr
    simp only [processPosts] at hr
    have hsplit : r ∈ (publishPost env p).trace ∨ r ∈ (processPosts env rest).2.2 := by
      split at hr <;> exact List.mem_append.mp hr
    rcases hsplit with h | h
    · exact ⟨p, by simp, h⟩
    · obtain ⟨q, hq, hqr⟩ := ih r h
      exact ⟨q, by simp [hq], hqr⟩

theorem mainRun_ok (env : Env) (posts : List PostMeta)
    (hprobe : env.probe = .ok ()) :
    mainRun env posts =
      ⟨(processPosts env posts).1, (processPosts env posts).2.1,
       if (processPosts env posts).2.1 > 0 then 1 else 0,
       .probe :: (processPosts env posts).2.2⟩ := by
  simp only [mainRun, hprobe]

/-! ### Claim theorems -/

/-- C1: For every post entry whose slug matches an existing remote post
(found by the existence check filtered over the publish, draft and pending
statuses), the pipeline issues an update (PUT) to the found resource's id
and never a create; for every entry with no remote counterpart, exactly one
create (POST) call is issued.  Hence re-publishing the same index against
the same remote state never produces a duplicate post for a slug. -/
theorem upsert_updates_existing_creates_absent
    (env : Env) (meta : PostMeta) (remote : List RemotePost) (iso : String)
    (hfile : env.fileExists (mdPath meta.slug) = true)
    (hdate : env.parseDate meta.date = some iso)
    (hget : env.getPosts meta.slug = .ok (remoteQuery remote meta.slug)) :
    (∀ p, (remoteQuery remote meta.slug).head? = some p →
      p.slug = meta.slug ∧ wpStatusFilter.contains p.status = true ∧
      Request.putPost p.id (assembledPayload env meta iso) ∈ (publishPost env meta).trace ∧
      ((publishPost env meta).trace.countP isCreatePostReq) = 0) ∧
    ((remoteQuery remote meta.slug).head? = none →
      ((publishPost env meta).trace.countP isCreatePostReq) = 1 ∧
      ((publishPost env meta).trace.countP isPutPostReq) = 0) := by
  rw [publishPost_upsert env meta iso _ hfile hdate hget]
  constructor
  · intro p hp
    have hmem : p ∈ remoteQuery remote meta.slug :=
      List.mem_of_mem_head? (by simp [hp])
    simp only [remoteQuery] at hmem
    have hfilt := (List.mem_filter.mp hmem).2
    rw [Bool.and_eq_true] at hfilt
    simp only [hp]
    refine ⟨by simpa using hfilt.1, hfilt.2, ?_, ?_⟩
    · split <;> simp
    · split <;>
        (rw [List.countP_append,
             preTrace_countP_zero env meta isCreatePostReq
               (fun n => rfl) (fun n => rfl) rfl rfl]
         simp [isCreatePostReq, List.countP_cons])
  · intro hnone
    simp only [hnone]
    constructor <;> split <;>
      (rw [List.countP_append,
           preTrace_countP_zero env meta _ (fun n => rfl) (fun n => rfl) rfl rfl]
       simp [isCreatePostReq, isPutPostReq, List.countP_cons])

/-- Witness for C1: the remote state `remoteX` holds a draft with slug "x"
and id 11; publishing entry "x" issues the PUT to id 11 and no create. -/
theorem upsert_updates_existing_creates_absent_witness :
    envRemote.fileExists (mdPath metaX.slug) = true ∧
    (Request.putPost 11 (assembledPayload envRemote metaX "2025-03-01T00:00:00.000Z")
        ∈ (publishPost envRemote metaX).trace ∧
     ((publishPost envRemote metaX).trace.countP isCreatePostReq) = 0) := by
  have h := (upsert_updates_existing_creates_absent envRemote metaX remoteX
      "2025-03-01T00:00:00.000Z" rfl (by decide) rfl).1 ⟨11, "x", "draft"⟩ (by decide)
  exact ⟨rfl, h.2.2.1, h.2.2.2⟩

/-- C2 counterexample: on a concrete run the create request carries the
payload `pdX`, whose serialized field list is exactly the eight keys
title, slug, content, excerpt, status, date, tags, categories — there is
no `featured_media` field, so the claim's field list is wrong. -/
theorem payload_lacks_featured_media_cex :
    Request.createPost pdX ∈ (publishPost envOk metaX).trace ∧
    (payloadFields pdX).map Prod.fst =
      ["title", "slug", "content", "excerpt", "status", "date", "tags", "categories"] ∧
    ((payloadFields pdX).map Prod.fst).contains "featured_media" = false := by
  refine ⟨by decide, by decide, by decide⟩

/-- C2 (amended): every upsert request (create and update path) carries the
full assembled payload, whose fields are exactly title, slug, content
(rendered HTML), excerpt, status="publish", date (the converted ISO date),
tags (resolved tag ids) and categories (the resolved category ids) — and
no `featured_media` field. -/
theorem upsert_payload_exact_fields (env : Env) (meta : PostMeta) (iso : String)
    (hfile : env.fileExists (mdPath meta.slug) = true)
    (hdate : env.parseDate meta.date = some iso) :
    ((payloadFields (assembledPayload env meta iso)).map Prod.fst =
      ["title", "slug", "content", "excerpt", "status", "date", "tags", "categories"]) ∧
    (assembledPayload env meta iso).title = meta.title ∧
    (assembledPayload env meta iso).slug = meta.slug ∧
    (assembledPayload env meta iso).status = "publish" ∧
    (assembledPayload env meta iso).date = iso ∧
    (assembledPayload env meta iso).excerpt = meta.excerpt ∧
    (assembledPayload env meta iso).content = env.render (env.readFile (mdPath meta.slug)) ∧
    (assembledPayload env meta iso).tags = (meta.tags.getD []).filterMap (tagOutcome env) ∧
    (assembledPayload env meta iso).categories = (resolveBlogCategory env).ids ∧
    (∀ i d, Request.putPost i d ∈ (publishPost env meta).trace →
      d = assembledPayload env meta iso) ∧
    (∀ d, Request.createPost d ∈ (publishPost env meta).trace →
      d = assembledPayload env meta iso) := by
  refine ⟨rfl, rfl, rfl, rfl, rfl, rfl, rfl,
    by simp [assembledPayload, mkPostData, resolveTags_ids_eq], rfl, ?_, ?_⟩
  · intro i d hd
    rcases hget : env.getPosts meta.slug with e | posts
    · rw [publishPost_get_err env meta iso e hfile hdate hget] at hd
      simp at hd
      rcases preTrace_mem env meta _ hd with ⟨n, h⟩ | ⟨n, h⟩ | h | h <;> simp at h
    · rw [publishPost_upsert env meta iso posts hfile hdate hget] at hd
      rcases hh : posts.head? with _ | p <;> simp only [hh] at hd
      · split at hd <;>
          (simp at hd
           rcases preTrace_mem env meta _ hd with ⟨n, h⟩ | ⟨n, h⟩ | h | h <;> simp at h)
      · split at hd <;>
          (simp at hd
           rcases hd with hd | hd
           · rcases preTrace_mem env meta _ hd with ⟨n, h⟩ | ⟨n, h⟩ | h | h <;> simp at h
           · exact hd.2)
  · intro d hd
    rcases hget : env.getPosts meta.slug with e | posts
    · rw [publishPost_get_err env meta iso e hfile hdate hget] at hd
      simp at hd
      rcases preTrace_mem env meta _ hd with ⟨n, h⟩ | ⟨n, h⟩ | h | h <;> simp at h
    · rw [publishPost_upsert env meta iso posts hfile hdate hget] at hd
      rcases hh : posts.head? with _ | p <;> simp only [hh] at hd
      · split at hd <;>
          (simp at hd
           rcases hd with hd | hd
           · rcases preTrace_mem env meta _ hd with ⟨n, h⟩ | ⟨n, h⟩ | h | h <;> simp at h
           · exact hd)
      · split at hd <;>
          (simp at hd
           rcases preTrace_mem env meta _ hd with ⟨n, h⟩ | ⟨n, h⟩ | h | h <;> simp at h)

/-- Witness for C2 (amended) at a concrete run. -/
theorem upsert_payload_exact_fields_witness :
    envOk.fileExists (mdPath metaX.slug) = true ∧
    ((payloadFields (assembledPayload envOk metaX "2025-03-01T00:00:00.000Z")).map Prod.fst =
      ["title", "slug", "content", "excerpt", "status", "date", "tags", "categories"]) ∧
    (assembledPayload envOk metaX "2025-03-01T00:00:00.000Z").status = "publish" := by
  have h := upsert_payload_exact_fields envOk metaX "2025-03-01T00:00:00.000Z" rfl (by decide)
  exact ⟨rfl, h.1, h.2.2.2.1⟩

/-- C3: a post failing during its upsert is recorded as failed and the run
continues (every post contributes to exactly one of the two counters); the
exit code is 1 exactly when some post failed; and on the concrete two-post
index where "a" fails its upsert with a 500 and "b" succeeds, the run
reports 1 success, 1 failure and exits with code 1. -/
theorem per_post_failure_isolated (env : Env) (posts : List PostMeta)
    (hprobe : env.probe = .ok ()) :
    (mainRun env posts).success + (mainRun env posts).failed = posts.length ∧
    ((mainRun env posts).exitCode = if (mainRun env posts).failed > 0 then 1 else 0) ∧
    (mainRun envC3 [metaA, metaB]).success = 1 ∧
    (mainRun envC3 [metaA, metaB]).failed = 1 ∧
    (mainRun envC3 [metaA, metaB]).exitCode = 1 := by
  rw [mainRun_ok env posts hprobe]
  exact ⟨by simpa using processPosts_total env posts, rfl,
    by decide, by decide, by decide⟩

/-- Witness for C3 at a concrete single-post run. -/
theorem per_post_failure_isolated_witness :
    envOk.probe = .ok () ∧
    ((mainRun envOk [metaA]).success + (mainRun envOk [metaA]).failed = [metaA].length ∧
     ((mainRun envOk [metaA]).exitCode = if (mainRun envOk [metaA]).failed > 0 then 1 else 0) ∧
     (mainRun envC3 [metaA, metaB]).success = 1 ∧
     (mainRun envC3 [metaA, metaB]).failed = 1 ∧
     (mainRun envC3 [metaA, metaB]).exitCode = 1) :=
  ⟨rfl, per_post_failure_isolated envOk [metaA] rfl⟩

/-- C4: a failure resolving one tag is swallowed: the tag is omitted, the
remaining tags resolve in order (the resolved id list is the in-order
`filterMap` of each tag's own resolution outcome), the assembled payload
carries exactly those ids, and the post is still published. -/
theorem bad_tag_swallowed (env : Env) (meta : PostMeta) (iso : String)
    (hfile : env.fileExists (mdPath meta.slug) = true)
    (hdate : env.parseDate meta.date = some iso)
    (hget : env.getPosts meta.slug = .ok [])
    (hcreate : env.createPost (assembledPayload env meta iso) = .ok ()) :
    (resolveTags env (meta.tags.getD [])).ids = (meta.tags.getD []).filterMap (tagOutcome env) ∧
    (assembledPayload env meta iso).tags = (meta.tags.getD []).filterMap (tagOutcome env) ∧
    (publishPost env meta).result = .ok .created := by
  refine ⟨resolveTags_ids_eq env _, by simp [assembledPayload, mkPostData, resolveTags_ids_eq], ?_⟩
  rw [publishPost_upsert env meta iso [] hfile hdate hget]
  simp [hcreate]

/-- Witness for C4: the index entry has tags ["Valid", "🚫Invalid🚫"]; the
second fails to resolve (500 on its search), yet the post publishes with
exactly the id of "Valid" attached. -/
theorem bad_tag_swallowed_witness :
    (assembledPayload envBadTag metaTags "2025-01-01T00:00:00.000Z").tags = [42] ∧
    ((resolveTags envBadTag (metaTags.tags.getD [])).ids =
      (metaTags.tags.getD []).filterMap (tagOutcome envBadTag) ∧
     (assembledPayload envBadTag metaTags "2025-01-01T00:00:00.000Z").tags =
      (metaTags.tags.getD []).filterMap (tagOutcome envBadTag) ∧
     (publishPost envBadTag metaTags).result = .ok .created) :=
  ⟨by decide, bad_tag_swallowed envBadTag metaTags "2025-01-01T00:00:00.000Z"
      rfl (by decide) rfl rfl⟩

/-- C5 counterexample: the entry `metaX` carries the featured-image URL
`https://example.com/missing.jpg` (whose download would 404), yet the run
issues no media search/download/upload request and logs no warning at all —
contradicting the claim that a warning is logged; the post is still created
and its payload has no featured_media field. -/
theorem featured_image_ignored_cex :
    metaX.featuredImage = some "https://example.com/missing.jpg" ∧
    (publishPost envOk metaX).result = .ok .created ∧
    ((publishPost envOk metaX).trace.countP isMediaReq) = 0 ∧
    (publishPost envOk metaX).warnings = [] ∧
    ((payloadFields (assembledPayload envOk metaX "2025-03-01T00:00:00.000Z")).map
        Prod.fst).contains "featured_media" = false := by
  exact ⟨rfl, by decide, by decide, by decide, by decide⟩

/-- C5 (amended): the script has no media-attachment step at all — there is
no ensureFeaturedMedia; for every oracle and entry, no media search,
download or upload request is ever issued, the behaviour of `publishPost`
is identical whether or not the entry carries a featuredImage, and no
payload ever has a featured_media field.  Hence an image URL can never
block (nor affect) the publishing of the post's text. -/
theorem no_media_attachment_step (env : Env) (meta : PostMeta)
    (url : Option String) (pd : PostData) :
    ((publishPost env meta).trace.countP isMediaReq) = 0 ∧
    publishPost env { meta with featuredImage := url } = publishPost env meta ∧
    "featured_media" ∉ (payloadFields pd).map Prod.fst := by
  refine ⟨publishPost_media_count env meta, ?_, by simp [payloadFields]⟩
  cases meta
  rfl

/-- C6: if any of WP_URL, WP_USERNAME, WP_APP_PASSWORD is absent from the
environment, the process exits with code 1 and the request trace is empty —
no network call is made. -/
theorem missing_env_fatal (wpUrl wpUsername wpAppPassword : Option String)
    (env : Env) (posts : List PostMeta)
    (h : wpUrl = none ∨ wpUsername = none ∨ wpAppPassword = none) :
    program wpUrl wpUsername wpAppPassword env posts = (1, []) := by
  rcases h with h | h | h <;> subst h <;>
    simp [program, startup, isMissing]

/-- Witness for C6: WP_URL absent, exit code 1, empty request trace. -/
theorem missing_env_fatal_witness :
    ((none : Option String) = none ∨ (some "u" : Option String) = none ∨
      (some "p" : Option String) = none) ∧
    program none (some "u") (some "p") envOk [] = (1, []) :=
  ⟨Or.inl rfl, missing_env_fatal none (some "u") (some "p") envOk [] (Or.inl rfl)⟩

/-- C7: a post entry whose markdown file is absent is skipped — `publishPost`
returns the Skipped outcome with only the skip log line and zero requests —
and a run whose every post returns normally (published, updated or skipped)
has failure count 0 and exit code 0. -/
theorem missing_markdown_skipped (env : Env) (meta : PostMeta)
    (posts : List PostMeta)
    (hmiss : env.fileExists (mdPath meta.slug) = false)
    (hprobe : env.probe = .ok ())
    (hok : ∀ p ∈ posts, ∃ res, (publishPost env p).result = .ok res) :
    publishPost env meta = ⟨.ok .skipped, [], [skipWarn meta.slug]⟩ ∧
    (mainRun env posts).failed = 0 ∧
    (mainRun env posts).exitCode = 0 := by
  refine ⟨publishPost_skip env meta hmiss, ?_, ?_⟩ <;>
    rw [mainRun_ok env posts hprobe] <;>
    simp [processPosts_failed_zero env posts hok]

/-- Witness for C7: under `envSkip` the entry "missing" is skipped and the
one-post run over "b" (which publishes) exits with code 0. -/
theorem missing_markdown_skipped_witness :
    envSkip.fileExists (mdPath metaMissing.slug) = false ∧
    (publishPost envSkip metaMissing = ⟨.ok .skipped, [], [skipWarn metaMissing.slug]⟩ ∧
     (mainRun envSkip [metaB]).failed = 0 ∧
     (mainRun envSkip [metaB]).exitCode = 0) :=
  ⟨by decide, missing_markdown_skipped envSkip metaMissing [metaB] (by decide) rfl
    (fun p hp => by
      simp at hp
      subst hp
      exact ⟨.created, by decide⟩)⟩

theorem stripSlashList_prefixOf (cs : List Char) : stripSlashList cs <+: cs := by
  unfold stripSlashList
  split
  · split
    · exact List.dropLast_prefix cs
    · exact List.prefix_refl cs
  · exact List.prefix_refl cs

/-- C8 counterexample: the configured value "example.com/" is normalized to
"example.com": the trailing slash is stripped but no https:// scheme is
prefixed onto the scheme-less value, contradicting the claimed
normalization result "https://example.com". -/
theorem wp_url_no_scheme_prefix_cex :
    startup (some "example.com/") (some "u") (some "p") =
      some ⟨"example.com", "u", "p"⟩ ∧
    "example.com" ≠ "https://example.com" :=
  ⟨by decide, by decide⟩

/-- C8 (amended): the only normalization applied to WP_URL is the removal
of one trailing slash: a value not ending in "/" is used verbatim, a value
ending in "/" loses exactly its last character, the normalized value is
always a prefix of the raw value, and in particular no "https://" scheme is
ever prefixed onto a value that lacks one. -/
theorem wp_url_trailing_slash_only (raw user pass : String)
    (hu : (normalizeWpUrl raw == "") = false)
    (hn : (user == "") = false) (hp : (pass == "") = false) :
    startup (some raw) (some user) (some pass) =
      some ⟨normalizeWpUrl raw, user, pass⟩ ∧
    (raw.data.getLast? ≠ some '/' → normalizeWpUrl raw = raw) ∧
    (raw.data.getLast? = some '/' → (normalizeWpUrl raw).data = raw.data.dropLast) ∧
    ((normalizeWpUrl raw).data <+: raw.data) ∧
    (¬ ("https://".data <+: raw.data) →
      ¬ ("https://".data <+: (normalizeWpUrl raw).data)) := by
  refine ⟨?_, ?_, ?_, stripSlashList_prefixOf raw.data, ?_⟩
  · simp [startup, isMissing, Option.map, hu, hn, hp]
  · intro h
    rcases hl : raw.data.getLast? with _ | c
    · simp [normalizeWpUrl, stripSlashList, hl]
    · have hc : ¬ c = '/' := fun hc => h (by rw [hl, hc])
      simp [normalizeWpUrl, stripSlashList, hl, hc]
  · intro h
    simp [normalizeWpUrl, stripSlashList, h]
  · intro hnot hpre
    exact hnot (hpre.trans (stripSlashList_prefixOf raw.data))

/-- Witness for C8 (amended) at the raw value "myblog.org/". -/
theorem wp_url_trailing_slash_only_witness :
    (normalizeWpUrl "myblog.org/" == "") = false ∧
    startup (some "myblog.org/") (some "u") (some "p") =
      some ⟨normalizeWpUrl "myblog.org/", "u", "p"⟩ :=
  ⟨by decide, (wp_url_trailing_slash_only "myblog.org/" "u" "p"
      (by decide) (by decide) (by decide)).1⟩

/-- C9 counterexample: in the two-post run over [metaA, metaB] (both files
present), the "Blog" category resolution request is issued twice — once per
post — and not once per run as claimed. -/
theorem blog_category_resolved_twice_cex :
    [metaA, metaB].length = 2 ∧
    ((mainRun envOk [metaA, metaB]).trace.countP isCatSearchReq) = 2 ∧
    ((mainRun envOk [metaA, metaB]).trace.countP isCatSearchReq) ≠ 1 :=
  ⟨rfl, by decide, by decide⟩

/-- C9 (amended): the fixed category "Blog" is re-resolved for each post:
a run issues exactly one category resolution request per non-skipped post
(so n requests for n posts whose markdown exists), every such request
naming the literal "Blog"; there is no process-wide cache making it once
per run. -/
theorem blog_category_resolved_per_post (env : Env) (posts : List PostMeta)
    (hprobe : env.probe = .ok ()) :
    ((mainRun env posts).trace.countP isCatSearchReq) =
      posts.countP (fun p => env.fileExists (mdPath p.slug)) ∧
    (∀ r ∈ (mainRun env posts).trace, isCatSearchReq r = true →
      r = Request.searchCategories "Blog") := by
  rw [mainRun_ok env posts hprobe]
  constructor
  · simp [List.countP_cons, isCatSearchReq, processPosts_catSearch_count]
  · intro r hr hcat
    simp only [List.mem_cons] at hr
    rcases hr with h | h
    · subst h; simp [isCatSearchReq] at hcat
    · obtain ⟨p, _, hrp⟩ := processPosts_trace_mem env posts r h
      rcases publishPost_trace_mem env p r hrp with
        ⟨n, h'⟩ | ⟨n, h'⟩ | h' | h' | h' | ⟨i, d, h'⟩ | ⟨d, h'⟩ <;>
        simp_all [isCatSearchReq]

/-- Witness for C9 (amended) on a concrete single-post run. -/
theorem blog_category_resolved_per_post_witness :
    envOk.probe = .ok () ∧
    ((mainRun envOk [metaA]).trace.countP isCatSearchReq) =
      [metaA].countP (fun p => envOk.fileExists (mdPath p.slug)) :=
  ⟨rfl, (blog_category_resolved_per_post envOk [metaA] rfl).1⟩

/-- C10: an entry whose date does not parse makes the date conversion throw
"Invalid time value" before any posts-resource request (no existence check,
no PUT, no create is issued), the post transitions to Failed, and a
single-post run over it counts 1 failure and exits with code 1. -/
theorem bad_date_fails_post (env : Env) (meta : PostMeta)
    (hfile : env.fileExists (mdPath meta.slug) = true)
    (hdate : env.parseDate meta.date = none)
    (hprobe : env.probe = .ok ()) :
    (publishPost env meta).result = .error "Invalid time value" ∧
    ((publishPost env meta).trace.countP isGetPostsReq) = 0 ∧
    ((publishPost env meta).trace.countP isPutPostReq) = 0 ∧
    ((publishPost env meta).trace.countP isCreatePostReq) = 0 ∧
    (mainRun env [meta]).failed = 1 ∧
    (mainRun env [meta]).exitCode = 1 := by
  have heq := publishPost_bad_date env meta hfile hdate
  have hcnt : ∀ f : Request → Bool, (∀ n, f (.searchTags n) = false) →
      (∀ n, f (.createTag n) = false) → f (.searchCategories "Blog") = false →
      f (.createCategory "Blog") = false →
      ((publishPost env meta).trace.countP f) = 0 := by
    intro f h1 h2 h3 h4
    rw [heq]
    exact preTrace_countP_zero env meta f h1 h2 h3 h4
  refine ⟨by rw [heq], hcnt _ (fun n => rfl) (fun n => rfl) rfl rfl,
    hcnt _ (fun n => rfl) (fun n => rfl) rfl rfl,
    hcnt _ (fun n => rfl) (fun n => rfl) rfl rfl, ?_, ?_⟩ <;>
    rw [mainRun_ok env [meta] hprobe] <;>
    simp [processPosts, heq]

/-- Witness for C10: under `envBadDate` the entry "x" fails with the date
error, is counted as the run's one failure, and the run exits 1. -/
theorem bad_date_fails_post_witness :
    envBadDate.parseDate metaX.date = none ∧
    ((publishPost envBadDate metaX).result = .error "Invalid time value" ∧
     (mainRun envBadDate [metaX]).failed = 1 ∧
     (mainRun envBadDate [metaX]).exitCode = 1) :=
  ⟨rfl, (bad_date_fails_post envBadDate metaX rfl rfl rfl).1,
    (bad_date_fails_post envBadDate metaX rfl rfl rfl).2.2.2.2.1,
    (bad_date_fails_post envBadDate metaX rfl rfl rfl).2.2.2.2.2⟩
